import Mathlib

/-!
Verification of the `/proc/mdstat` parser of `osquery/tables/system/linux/mdstat.cpp`.

Strings are modelled as `List Char` (`Str`), mirroring `std::string` operations
(`find`, `find_first_not_of`, `find_last_not_of`, `substr`, `operator[]`)
explicitly.  Fallible C++ behaviour is made explicit through `CppResult`:
an out-of-bounds `std::vector`/`std::string` index (undefined behaviour in the
source) is `oob`, an uncaught C++ exception (`std::stoi`, `std::string::substr`)
is `exc`, and exhaustion of the fuel of the main parse loop is `diverge`
(the C++ loop has no fuel; `diverge` for every fuel models non-termination).
-/

set_option maxRecDepth 40000

namespace MDStatVerify

abbrev Str := List Char

/-- The delimiter set of the whitespace split (space and tab). -/
def wsDelim (c : Char) : Bool := c = ' ' || c = '\t'

/-- Characters of the C++ set literal "\t\r\v " used by `getLines`. -/
def blankChars : Str := ['\t', '\r', '\x0b', ' ']

/-- Helper for `std::string::find_first_not_of`: index of the first character
of `s` (counting from `i`) that is not a member of `set`. -/
def ffnoAux (set : Str) : Str → Nat → Option Nat
  | [], _ => none
  | c :: rest, i => if set.contains c then ffnoAux set rest (i + 1) else some i

/-- `std::string::find_first_not_of` (character-set version, from position 0). -/
def findFirstNotOf (s set : Str) : Option Nat := ffnoAux set s 0

/-- `std::string::find_last_not_of` (character-set version). -/
def findLastNotOf (s set : Str) : Option Nat :=
  match findFirstNotOf s.reverse set with
  | some i => some (s.length - 1 - i)
  | none => none

/-- `trimStr(s, c)` of the source: removes leading and trailing copies of the
single character `c`; a string that consists only of `c` is returned
unchanged (the early `return` of the source). -/
def trimChar (c : Char) (s : Str) : Str :=
  match findFirstNotOf s [c] with
  | none => s
  | some first =>
    match findLastNotOf s [c] with
    | none => s
    | some last => (s.take (last + 1)).drop first

/-- `trimStr(s)` with the default argument `' '`. -/
def trimSp (s : Str) : Str := trimChar ' ' s

/-- Helper for `std::string::find` (substring search). -/
def strFindAux (pat : Str) : Str → Nat → Option Nat
  | [], i => if pat.isEmpty then some i else none
  | t@(_ :: rest), i => if pat.isPrefixOf t then some i else strFindAux pat rest (i + 1)

/-- `std::string::find(pat)`: position of the first occurrence of `pat`. -/
def strFind (s pat : Str) : Option Nat := strFindAux pat s 0

/-- `std::string::find(c)` for a single character. -/
def strFindChar (s : Str) (c : Char) : Option Nat := strFind s [c]

/-- Generic splitter on a delimiter predicate, accumulating the current token. -/
def splitByAux (p : Char → Bool) : Str → Str → List Str
  | [], cur => [cur.reverse]
  | c :: rest, cur =>
    if p c then cur.reverse :: splitByAux p rest [] else splitByAux p rest (c :: cur)

/-- Split on a delimiter predicate, discarding empty tokens. -/
def splitBy (p : Char → Bool) (s : Str) : List Str :=
  (splitByAux p s []).filter (fun t => !t.isEmpty)

/-- Modelled from the spec: the repository's `split` helper (declared in
`osquery/core/conversions.h`, not included under `src/`) as the spec words it
for header/config/progress lines: the line is "split on whitespace" into
tokens, empty tokens being discarded. -/
def splitWs (s : Str) : List Str := splitBy wsDelim s

/-- Modelled from the spec: `split(line, ":", 1)` as the spec words it:
"split once on the first colon"; without a colon the whole line is the only
piece. -/
def splitColonOnce (s : Str) : List Str :=
  match strFindChar s ':' with
  | none => [s]
  | some i => [s.take i, s.drop (i + 1)]

/-- Modelled from the spec: the stored bitmap raw string "is split on commas"
into segments (the `split` helper discards empty segments). -/
def splitComma (s : Str) : List Str := splitBy (fun c => c = ',') s

/-- `MDDevice` of the source; every `std::string` field default-constructs
empty. -/
structure MDDevice where
  name : Str := []
  status : Str := []
  raidLevel : Str := []
  usableSize : Str := []
  other : Str := []
  drives : List Str := []
  healthyDrives : Str := []
  driveStatuses : Str := []
  recovery : Str := []
  resync : Str := []
  bitmap : Str := []
  checkArray : Str := []
deriving DecidableEq

/-- `MDStat` of the source. -/
structure MDStat where
  personalities : Str := []
  devices : List MDDevice := []
  unused : Str := []
deriving DecidableEq

/-- Outcome of running a piece of the C++ translation unit. -/
inductive CppResult (α : Type) where
  | ok (a : α)
  | oob
  | exc
  | diverge
deriving DecidableEq

/-- The keep test of `getLines`: the trimmed line has a character outside
"\t\r\v ". -/
def keepLine (l : Str) : Bool := (findFirstNotOf l blankChars).isSome

/-- `getLines` over the raw lines delivered by `getline`: each line is trimmed
with `trimStr` (spaces only) and kept when some character lies outside the
blank set. -/
def getLines (raw : List Str) : List Str :=
  raw.filterMap (fun line =>
    let t := trimSp line
    if keepLine t then some t else none)

def kPersonalities : Str := ("Personalities :").data

def kRecovery : Str := ("recovery =").data

def kResync : Str := ("resync =").data

def kCheck : Str := ("check =").data

def kBitmap : Str := ("bitmap:").data

def kMd : Str := ("md").data

def kUn : Str := ("un").data

/-- `sizeof("unused devices:") - 1`. -/
def kUnusedLen : Nat := 15

/-- The four keyed substrings of the optional-metadata loop. -/
inductive MetaKey where
  | recovery
  | resync
  | check
  | bitmap
deriving DecidableEq

/-- The if/else-if chain of the metadata loop: which key a lookahead line
matches, and the cut position `pos + sizeof(key) - 1` used by `substr`. -/
def metaKeyOf (line : Str) : Option (MetaKey × Nat) :=
  match strFind line kRecovery with
  | some pos => some (MetaKey.recovery, pos + 10)
  | none =>
    match strFind line kResync with
    | some pos => some (MetaKey.resync, pos + 8)
    | none =>
      match strFind line kCheck with
      | some pos => some (MetaKey.check, pos + 7)
      | none =>
        match strFind line kBitmap with
        | some pos => some (MetaKey.bitmap, pos + 7)
        | none => none

/-- Store a metadata value into the field selected by the matched key. -/
def metaSet (k : MetaKey) (v : Str) (mdd : MDDevice) : MDDevice :=
  match k with
  | MetaKey.recovery => { mdd with recovery := v }
  | MetaKey.resync => { mdd with resync := v }
  | MetaKey.check => { mdd with checkArray := v }
  | MetaKey.bitmap => { mdd with bitmap := v }

/-- Read the field selected by a key. -/
def metaField (k : MetaKey) (mdd : MDDevice) : Str :=
  match k with
  | MetaKey.recovery => mdd.recovery
  | MetaKey.resync => mdd.resync
  | MetaKey.check => mdd.checkArray
  | MetaKey.bitmap => mdd.bitmap

/-- One inspection of a lookahead line: `some` updated device when a key
matched (the line is consumed), `none` when the loop breaks. -/
def metaApply (mdd : MDDevice) (line : Str) : Option MDDevice :=
  match metaKeyOf line with
  | some (k, cut) => some (metaSet k (trimSp (line.drop cut)) mdd)
  | none => none

/-- The optional-metadata loop over the lookahead suffix `lines[n+1], ...`:
returns the number of consumed lines and the final device; `none` models the
C++ read of `lines[n + 1]` past the end of the vector. -/
def metaLoop (mdd : MDDevice) : List Str → Option (Nat × MDDevice)
  | [] => none
  | l :: rest =>
    match metaApply mdd l with
    | some mdd2 =>
      match metaLoop mdd2 rest with
      | some (k, d) => some (k + 1, d)
      | none => none
    | none => some (0, mdd)

/-- Field updates of the configuration-line handling, over the trimmed token
vector: the first two tokens joined by a space, the two tokens at
`size() - 2` and `size() - 1`, and (only when more than four tokens exist) the
middle tokens appended to `other`, each preceded by one space. -/
def parseConfigCore (cfg : List Str) (mdd : MDDevice) : MDDevice :=
  { mdd with
    usableSize := cfg.getD 0 [] ++ ' ' :: cfg.getD 1 [],
    healthyDrives := cfg.getD (cfg.length - 2) [],
    driveStatuses := cfg.getD (cfg.length - 1) [],
    other :=
      if 4 < cfg.length then
        ((cfg.drop 2).take (cfg.length - 4)).foldl
          (fun a t => a ++ ' ' :: t) mdd.other
      else mdd.other }

/-- The configuration-line handling of `parseMDStat` (lines 156-171 of the
source): token count below four leaves all fields untouched, otherwise the
tokens are trimmed (`trimStr(configline)`) and the fields filled in. -/
def parseConfig (line : Str) (mdd : MDDevice) : MDDevice :=
  if (splitWs line).length < 4 then mdd
  else parseConfigCore ((splitWs line).map trimSp) mdd

/-- One iteration of the `while (n < lines.size())` body of `parseMDStat`.
Returns the next cursor and accumulated result.  The malformed-header branch
(`mdline.size() < 2`) executes `continue` without advancing `n`, hence returns
the same cursor. -/
def mdStep (lines : List Str) (n : Nat) (acc : MDStat) : CppResult (Nat × MDStat) :=
  let line := (lines[n]?).getD []
  let firstTwo := line.take 2
  if firstTwo = kMd then
    let mdline := splitColonOnce line
    if mdline.length < 2 then
      CppResult.ok (n, acc)
    else
      let mdd0 : MDDevice := { name := trimSp (mdline.getD 0 []) }
      let settings := (splitWs (mdline.getD 1 [])).map trimSp
      let mdd1 :=
        if 2 ≤ settings.length then
          { mdd0 with
            status := settings.getD 0 [],
            raidLevel := settings.getD 1 [],
            drives := settings.drop 2 }
        else mdd0
      match lines[n + 1]? with
      | none => CppResult.oob
      | some cfg =>
        let mdd2 := parseConfig cfg mdd1
        match metaLoop mdd2 (lines.drop (n + 2)) with
        | none => CppResult.oob
        | some (k, mdd3) =>
          CppResult.ok (n + 2 + k, { acc with devices := acc.devices ++ [mdd3] })
  else if firstTwo = kUn then
    if kUnusedLen ≤ line.length then
      CppResult.ok (n + 1, { acc with unused := line.drop kUnusedLen })
    else CppResult.exc
  else
    CppResult.ok (n + 1, acc)

/-- The fueled main loop of `parseMDStat` (the C++ loop is unfueled; a result
of `diverge` at every fuel models non-termination). -/
def mdLoop : Nat → List Str → Nat → MDStat → CppResult MDStat
  | 0, _, _, _ => CppResult.diverge
  | fuel + 1, lines, n, acc =>
    if n < lines.length then
      match mdStep lines n acc with
      | CppResult.ok (n2, acc2) => mdLoop fuel lines n2 acc2
      | CppResult.oob => CppResult.oob
      | CppResult.exc => CppResult.exc
      | CppResult.diverge => CppResult.diverge
    else CppResult.ok acc

/-- `parseMDStat` over the raw line sequence of the status source. -/
def parseMDStat (fuel : Nat) (raw : List Str) : CppResult MDStat :=
  let lines := getLines raw
  if lines.length < 1 then CppResult.ok {}
  else
    let l0 := lines.getD 0 []
    if (strFind l0 kPersonalities).isSome then
      mdLoop fuel lines 1 { personalities := l0.drop 15 }
    else
      mdLoop fuel lines 0 {}

/-- The `find_first_not_of`-based stripping of the `handleR` lambda: skips all
leading characters drawn from the character set `set`; a token consisting only
of set characters is used verbatim (the `npos` branch of the source). -/
def skipSetChars (t set : Str) : Str :=
  match findFirstNotOf t set with
  | some start => t.drop start
  | none => t

def kFinishSet : Str := ("finish=").data

def kSpeedSet : Str := ("speed=").data

/-- The `handleR` lambda of `genMDDevices`: `none` when the stored raw string
does not split into exactly four tokens (no column is assigned), otherwise the
`(progress, finish, speed)` column values. -/
def handleR (line : Str) : Option (Str × Str × Str) :=
  let pieces := splitWs line
  if pieces.length = 4 then
    let p := pieces.map trimSp
    some (p.getD 0 [] ++ ' ' :: p.getD 1 [],
      skipSetChars (p.getD 2 []) kFinishSet,
      skipSetChars (p.getD 3 []) kSpeedSet)
  else none

def kFileKey : Str := ("file:").data

/-- The bitmap-column block of `genMDDevices`: `none` when fewer than two
comma segments exist (no bitmap column assigned). -/
def bitmapCols (b : Str) : Option (Str × Str × Option Str) :=
  let infos := splitComma b
  if infos.length < 2 then none
  else
    let bi := infos.map trimSp
    let third := bi.getD 2 []
    let ext :=
      match (if 2 < bi.length then strFind third kFileKey else none) with
      | some pos => some (trimSp (third.drop (pos + 5)))
      | none => none
    some (bi.getD 0 [], bi.getD 1 [], ext)

/-- One row of the `md_devices` table; a column the source never assigns for
the row is `none`. -/
structure DeviceRow where
  device_name : Str
  status : Str
  raid_level : Str
  healthy_drives : Str
  usable_size : Str
  discovery_progress : Option Str := none
  discovery_finish : Option Str := none
  discovery_speed : Option Str := none
  resync_progress : Option Str := none
  resync_finish : Option Str := none
  resync_speed : Option Str := none
  check_array_progress : Option Str := none
  check_array_finish : Option Str := none
  check_array_speed : Option Str := none
  bitmap_on_mem : Option Str := none
  bitmap_chunk_size : Option Str := none
  bitmap_external_file : Option Str := none
  unused_devices : Str := []
deriving DecidableEq

/-- Row construction of the `genMDDevices` loop body for one device. -/
def deviceRow (mdsUnused : Str) (device : MDDevice) : DeviceRow :=
  let base : DeviceRow := {
    device_name := device.name,
    status := device.status,
    raid_level := device.raidLevel,
    healthy_drives := device.healthyDrives,
    usable_size := device.usableSize,
    unused_devices := mdsUnused }
  let r1 :=
    if device.recovery ≠ [] then
      match handleR device.recovery with
      | some (p, f, s) =>
        { base with
          discovery_progress := some p
          discovery_finish := some f
          discovery_speed := some s }
      | none => base
    else base
  let r2 :=
    if device.resync ≠ [] then
      match handleR device.resync with
      | some (p, f, s) =>
        { r1 with
          resync_progress := some p
          resync_finish := some f
          resync_speed := some s }
      | none => r1
    else r1
  let r3 :=
    if device.checkArray ≠ [] then
      match handleR device.checkArray with
      | some (p, f, s) =>
        { r2 with
          check_array_progress := some p
          check_array_finish := some f
          check_array_speed := some s }
      | none => r2
    else r2
  if device.bitmap ≠ [] then
    match bitmapCols device.bitmap with
    | some (m, c, e) =>
      { r3 with
        bitmap_on_mem := some m
        bitmap_chunk_size := some c
        bitmap_external_file := e }
    | none => r3
  else r3

/-- `genMDDevices`: the per-array summary projection. -/
def genMDDevices (fuel : Nat) (raw : List Str) : CppResult (List DeviceRow) :=
  match parseMDStat fuel raw with
  | CppResult.ok mds => CppResult.ok (mds.devices.map (deviceRow mds.unused))
  | CppResult.oob => CppResult.oob
  | CppResult.exc => CppResult.exc
  | CppResult.diverge => CppResult.diverge

/-- `isspace` of the C locale. -/
def isspaceC (c : Char) : Bool :=
  c = ' ' || c = '\t' || c = '\n' || c = '\x0b' || c = '\x0c' || c = '\r'

/-- Value of a digit string. -/
def digitsVal (ds : Str) : Nat := ds.foldl (fun a c => a * 10 + (c.toNat - 48)) 0

/-- `std::stoi`: skips leading whitespace and an optional sign, requires at
least one digit, ignores a trailing remainder; `none` models the thrown
`std::invalid_argument` / `std::out_of_range`. -/
def stoiOpt (s : Str) : Option Int :=
  let s1 := s.dropWhile isspaceC
  let signed : Int × Str :=
    match s1 with
    | '-' :: rest => (-1, rest)
    | '+' :: rest => (1, rest)
    | _ => (1, s1)
  let ds := signed.2.takeWhile Char.isDigit
  if ds.isEmpty then none
  else
    let v : Int := signed.1 * (digitsVal ds : Nat)
    if v < -(2 ^ 31) ∨ (2 ^ 31 - 1 : Int) < v then none else some v

/-- `2 ^ 64`, the modulus of `size_t` arithmetic. -/
def sizeTMod : Nat := 18446744073709551616

/-- Conversion of a C++ `int` value to `size_t`. -/
def toSizeT (i : Int) : Nat := (i % (sizeTMod : Int)).toNat

/-- One row of the `md_drives` table. -/
structure DriveRow where
  md_device_name : Str
  drive_name : Str
  status : Option Str := none
deriving DecidableEq

def kOne : Str := ("1").data

def kZero : Str := ("0").data

/-- The argument of `std::stoi`:
`drive.substr(start + 1, end - start - 1)`, with `size_t` wraparound of the
count clamping to the rest of the string when `]` sits before `[`. -/
def bracketInner (drive : Str) (start stop : Nat) : Str :=
  if start + 1 ≤ stop then (drive.drop (start + 1)).take (stop - start - 1)
  else drive.drop (start + 1)

/-- The status computation of the drive loop: `ok (some v)` when the row gets
a status column, `ok none` when the (buggy) range test fails and the row is
emitted without a status, `oob` an out-of-range `driveStatuses[driveNum + 1]`
read.  The range condition transcribes `0 <= driveNum < length() - 2` with
C++ semantics: the chained comparison compares the boolean `0 <= driveNum`
(as 0 or 1) against the `size_t` value `length() - 2`; reading the index equal
to `length()` yields the terminating NUL (which compares unequal to 'U'). -/
def rowStatus (statuses : Str) (driveNum : Int) : CppResult (Option Str) :=
  let len := statuses.length
  let lhs : Nat := if 0 ≤ driveNum then 1 else 0
  if lhs < (len + sizeTMod - 2) % sizeTMod then
    let idx := toSizeT (driveNum + 1)
    if idx < len then
      CppResult.ok (some (if statuses.getD idx ' ' = 'U' then kOne else kZero))
    else if idx = len then
      CppResult.ok (some kZero)
    else CppResult.oob
  else CppResult.ok none

/-- The per-token work of the inner drive loop of `genMDDrives`, up to the
status resolution: `ok none` models `continue` (no row emitted), `ok (some st)`
a row emitted with status column `st`, `exc` an uncaught `std::stoi`
exception. -/
def rowCore (statuses drive : Str) : CppResult (Option (Option Str)) :=
  match strFindChar drive '[' with
  | none => CppResult.ok none
  | some start =>
    match strFindChar drive ']' with
    | none => CppResult.ok none
    | some stop =>
      match stoiOpt (bracketInner drive start stop) with
      | none => CppResult.exc
      | some driveNum =>
        match rowStatus statuses driveNum with
        | CppResult.ok st => CppResult.ok (some st)
        | CppResult.oob => CppResult.oob
        | CppResult.exc => CppResult.exc
        | CppResult.diverge => CppResult.diverge

/-- The inner loop of `genMDDrives` over the member tokens of one device; the
emitted row carries the device name and the member token verbatim. -/
def driveRowsAux (devName statuses : Str) : List Str → CppResult (List DriveRow)
  | [] => CppResult.ok []
  | d :: ds =>
    match rowCore statuses d with
    | CppResult.ok none => driveRowsAux devName statuses ds
    | CppResult.ok (some st) =>
      match driveRowsAux devName statuses ds with
      | CppResult.ok rs =>
        CppResult.ok ({ md_device_name := devName, drive_name := d, status := st } :: rs)
      | CppResult.oob => CppResult.oob
      | CppResult.exc => CppResult.exc
      | CppResult.diverge => CppResult.diverge
    | CppResult.oob => CppResult.oob
    | CppResult.exc => CppResult.exc
    | CppResult.diverge => CppResult.diverge

/-- The outer loop of `genMDDrives` over the parsed devices. -/
def devicesRows : List MDDevice → CppResult (List DriveRow)
  | [] => CppResult.ok []
  | dev :: devs =>
    match driveRowsAux dev.name dev.driveStatuses dev.drives with
    | CppResult.ok rs =>
      match devicesRows devs with
      | CppResult.ok rs2 => CppResult.ok (rs ++ rs2)
      | CppResult.oob => CppResult.oob
      | CppResult.exc => CppResult.exc
      | CppResult.diverge => CppResult.diverge
    | CppResult.oob => CppResult.oob
    | CppResult.exc => CppResult.exc
    | CppResult.diverge => CppResult.diverge

/-- `genMDDrives`: the drive membership projection. -/
def genMDDrives (fuel : Nat) (raw : List Str) : CppResult (List DriveRow) :=
  match parseMDStat fuel raw with
  | CppResult.ok mds => devicesRows mds.devices
  | CppResult.oob => CppResult.oob
  | CppResult.exc => CppResult.exc
  | CppResult.diverge => CppResult.diverge

/-- Name extraction of `genMDPersonalities`:
`setting.substr(1, setting.length() - 2)` (with `size_t` truncation of the
count, which clamps for lengths below two). -/
def personalityName (setting : Str) : Str :=
  let s := trimSp setting
  (s.drop 1).take (s.length - 2)

/-- `genMDPersonalities`: the personality projection. -/
def genMDPersonalities (fuel : Nat) (raw : List Str) : CppResult (List Str) :=
  match parseMDStat fuel raw with
  | CppResult.ok mds =>
    CppResult.ok ((splitWs mds.personalities).map personalityName)
  | CppResult.oob => CppResult.oob
  | CppResult.exc => CppResult.exc
  | CppResult.diverge => CppResult.diverge

/-! ### Spec-side definitions (worded from the spec, for refinement claims) -/

/-- Trim every leading and trailing member of `set` from `s`. -/
def trimSet (set s : Str) : Str :=
  ((s.dropWhile (fun c => set.contains c)).reverse.dropWhile
    (fun c => set.contains c)).reverse

/-- The normalizer as claim C5 words it: all leading and trailing tab, CR,
vertical-tab and space characters are stripped from each line; lines that
become empty are dropped; order is kept. -/
def specNormalizeClaim (raw : List Str) : List Str :=
  (raw.map (trimSet blankChars)).filter (fun t => !t.isEmpty)

/-- The normalizer as the code actually behaves (amended claim C5): only
spaces are trimmed from the ends of each line; a line is dropped exactly when
it has no character outside tab/CR/VT/space; order is kept. -/
def specNormalizeAmended (raw : List Str) : List Str :=
  (raw.map trimSp).filter (fun t => t.any (fun c => !(blankChars.contains c)))

/-- Spec wording: "the first two tokens concatenated (with a single space)". -/
def specUsableSize (tokens : List Str) : Str :=
  tokens.getD 0 [] ++ ' ' :: tokens.getD 1 []

/-- Spec wording: the second-to-last token. -/
def specHealthy (tokens : List Str) : Str := tokens.reverse.getD 1 []

/-- Spec wording: the last token. -/
def specBitmapTok (tokens : List Str) : Str := tokens.reverse.getD 0 []

/-- Spec wording: "any tokens strictly between the first two and the last two
are concatenated (each prefixed with a space)". -/
def specOtherSettings (tokens : List Str) : Str :=
  (((tokens.drop 2).dropLast.dropLast).map (fun t => ' ' :: t)).flatten

/-! ### Concrete inputs for the claims -/

/-- A normalized sequence whose second line is classified as an array header
("md" first) but has no colon. -/
def c1Input : List Str :=
  [("Personalities : [raid1]").data, ("md device without colon").data]

/-- The accumulated state of the parse loop when it first reaches the
malformed header of `c1Input`. -/
def c1Acc : MDStat := { personalities := (" [raid1]").data }

/-- A truncated input whose array header line is the last line. -/
def c2Input : List Str :=
  [("Personalities : [raid1]").data, ("md0 : active raid1 sda1[0]").data]

/-- An input whose single member token carries slot 5 while the drive status
bitmap is the four-character string `[UU]`. -/
def c3Input : List Str :=
  [("Personalities : [raid1]").data,
   ("md0 : active raid1 sda1[5]").data,
   ("100 blocks [2/2] [UU]").data,
   ("unused devices: <none>").data]

/-- A stored progress string of exactly four tokens whose third and fourth
tokens carry the expected key but whose values start with characters of the
key's character set. -/
def c4line : Str := ("1% (1/2) finish=now speed=sup").data

/-- The five-line well-formed input of the spec's round-trip property. -/
def c7Input : List Str :=
  [("Personalities : [raid1]").data,
   ("md0 : active raid1 sdb1[1] sda1[0]").data,
   ("      1953514496 blocks super 1.2 [2/2] [UU]").data,
   ("      [===>.................]  resync = 15.5% (303746432/1953514496) finish=115.2min speed=162033K/sec").data,
   ("unused devices: <none>").data]

/-- A well-formed input whose second member token carries a trailing flag
suffix after the bracketed slot. -/
def c10Input : List Str :=
  [("Personalities : [raid1]").data,
   ("md1 : active raid0 hda1[0] hdb2[1](F)").data,
   ("10 blocks [2/2] [UU]").data,
   ("unused devices: <none>").data]

/-- The drive rows the projection produces for `c10Input`. -/
def c10Rows : List DriveRow :=
  [{ md_device_name := ("md1").data, drive_name := ("hda1[0]").data, status := some kOne },
   { md_device_name := ("md1").data, drive_name := ("hdb2[1](F)").data, status := some kOne }]

/-- The second drive row of `c10Rows` (the flag-suffixed token). -/
def c10Row : DriveRow :=
  { md_device_name := ("md1").data, drive_name := ("hdb2[1](F)").data, status := some kOne }

/-- Extract the row list of a projection result (empty on failure). -/
def rowsOf {α : Type} (r : CppResult (List α)) : List α :=
  match r with
  | CppResult.ok rs => rs
  | CppResult.oob => []
  | CppResult.exc => []
  | CppResult.diverge => []

/-! ### Claim C1 -/

lemma c1_step : mdStep c1Input 1 c1Acc = CppResult.ok (1, c1Acc) := by decide

lemma c1_loop : ∀ fuel : Nat, mdLoop fuel c1Input 1 c1Acc = CppResult.diverge := by
  intro fuel
  induction fuel with
  | zero => rfl
  | succ f ih =>
    have hlen : 1 < c1Input.length := by decide
    rw [mdLoop, if_pos hlen, c1_step]
    exact ih

/-- Claim C1: refuted by the code.  On a normalized line sequence whose second
line is classified as an array header yet does not split on a colon into two
parts, the loop body of `parseMDStat` executes `continue` without advancing the
cursor, so the parse never terminates: at every fuel the fueled embedding
reports divergence. -/
theorem mdstat_c1_nontermination :
    ∀ fuel : Nat, parseMDStat fuel c1Input = CppResult.diverge := by
  intro fuel
  have h : parseMDStat fuel c1Input = mdLoop fuel c1Input 1 c1Acc := rfl
  rw [h]
  exact c1_loop fuel

/-! ### Claim C2 -/

/-- Claim C2: refuted by the code.  When an array header line is the last line
of the normalized sequence, `parseMDStat` indexes `lines[n + 1]` one past the
end of the vector (undefined behaviour), and every projection inherits the
fault — not the claimed graceful degradation. -/
theorem mdstat_c2_truncated_oob :
    parseMDStat 10 c2Input = CppResult.oob ∧
    genMDDevices 10 c2Input = CppResult.oob ∧
    genMDDrives 10 c2Input = CppResult.oob ∧
    genMDPersonalities 10 c2Input = CppResult.oob := by decide

/-! ### Claim C3 -/

/-- Claim C3: refuted by the code.  The range test
`0 <= driveNum < driveStatuses.length() - 2` compares the boolean
`0 <= driveNum` (value 1) against `length() - 2`, so it passes for any slot
once the bitmap has length at least 4; member token `sda1[5]` against bitmap
`[UU]` therefore reads `driveStatuses[6]` out of bounds instead of emitting the
row without a status value. -/
theorem mdstat_c3_slot_check_oob : genMDDrives 10 c3Input = CppResult.oob := by decide

/-! ### Claim C4 -/

/-- Claim C4: refuted by the code.  `find_first_not_of("finish=")` skips every
leading character drawn from the character set of the key, not the literal
key: for the four-token progress string `1% (1/2) finish=now speed=sup` the
projected finish value is `ow` (not the claimed `now`) and the speed value is
`up` (not the claimed `sup`). -/
theorem mdstat_c4_find_first_not_of_strip :
    handleR c4line =
      some ((("1% (1/2)").data), (("ow").data), (("up").data)) ∧
    (("ow").data : Str) ≠ ("now").data ∧ (("up").data : Str) ≠ ("sup").data := by decide

/-! ### Claim C5 -/

/-- Counterexample to claim C5: a line with a leading tab keeps its tab —
`trimStr` with its default argument removes spaces only, so the normalizer
does not behave as the claim's trimming of the full tab/CR/VT/space set. -/
theorem mdstat_c5_counterexample :
    getLines [("\tfoo").data] ≠ specNormalizeClaim [("\tfoo").data] := by decide

lemma ffno_isSome_any (set : Str) :
    ∀ (t : Str) (i : Nat),
      (ffnoAux set t i).isSome = t.any (fun c => !(set.contains c)) := by
  intro t
  induction t with
  | nil => intro i; rfl
  | cons c rest ih =>
    intro i
    by_cases hc : c ∈ set <;> simp [ffnoAux, hc, ih]

lemma filterMap_trim_filter (f : Str → Str) (p : Str → Bool) :
    ∀ raw : List Str,
      raw.filterMap (fun l => let t := f l; if p t then some t else none) =
        (raw.map f).filter p := by
  intro raw
  induction raw with
  | nil => rfl
  | cons a as ih =>
    cases hp : p (f a) <;> simp [List.filterMap_cons, hp, ih]

/-- Claim C5 as amended: the normalizer strips leading and trailing space
characters (only) from each line; a line is dropped exactly when it contains no
character outside the tab/CR/VT/space set; all remaining lines keep their
relative order. -/
theorem mdstat_c5_amended : ∀ raw, getLines raw = specNormalizeAmended raw := by
  intro raw
  unfold getLines specNormalizeAmended
  rw [filterMap_trim_filter trimSp keepLine]
  apply List.filter_congr
  intro t _
  exact ffno_isSome_any blankChars t 0

/-! ### Claim C7 -/

/-- Counterexample to claim C7: on the spec's five-line round-trip input the
single array row carries `healthy_drives = "[2/2]"` — the bracketed config
token verbatim — not the claimed `"2/2"`. -/
theorem mdstat_c7_counterexample :
    (rowsOf (genMDDevices 10 c7Input)).map (fun r => r.healthy_drives) =
      [("[2/2]").data] ∧
    (("[2/2]").data : Str) ≠ ("2/2").data := by decide

/-- Claim C7 as amended: on the spec's five-line input the array view yields
exactly one row with raid_level `raid1`, healthy_drives `[2/2]` (bracketed,
amended from `2/2`), usable_size `1953514496 blocks`, resync progress/finish/
speed as claimed; the drive view yields exactly the two rows with status `1`;
the personality view yields exactly the row `raid1`. -/
theorem mdstat_c7_round_trip :
    (rowsOf (genMDDevices 10 c7Input)).map
        (fun r => (r.raid_level, r.healthy_drives, r.usable_size)) =
      [(("raid1").data, ("[2/2]").data, ("1953514496 blocks").data)] ∧
    (rowsOf (genMDDevices 10 c7Input)).map
        (fun r => (r.resync_progress, r.resync_finish, r.resync_speed)) =
      [(some (("15.5% (303746432/1953514496)").data),
        some (("115.2min").data),
        some (("162033K/sec").data))] ∧
    genMDDrives 10 c7Input = CppResult.ok
      [{ md_device_name := ("md0").data, drive_name := ("sdb1[1]").data, status := some kOne },
       { md_device_name := ("md0").data, drive_name := ("sda1[0]").data, status := some kOne }] ∧
    genMDPersonalities 10 c7Input = CppResult.ok [("raid1").data] := by decide

/-! ### Claim C8 -/

lemma splitWs_nil : splitWs [] = [] := rfl

/-- Claim C8: an empty normalized line sequence yields the empty snapshot and
all three projections return an empty view (never a failure). -/
theorem mdstat_c8_empty (fuel : Nat) (raw : List Str) (h : getLines raw = []) :
    parseMDStat fuel raw = CppResult.ok ⟨[], [], []⟩ ∧
    genMDDevices fuel raw = CppResult.ok [] ∧
    genMDDrives fuel raw = CppResult.ok [] ∧
    genMDPersonalities fuel raw = CppResult.ok [] := by
  have hp : parseMDStat fuel raw = CppResult.ok ⟨[], [], []⟩ := by
    simp [parseMDStat, h]
  refine ⟨hp, ?_, ?_, ?_⟩
  · simp [genMDDevices, hp]
  · simp [genMDDrives, hp, devicesRows]
  · simp [genMDPersonalities, hp, splitWs_nil]

/-- Witness for claim C8 at a concrete unreadable/blank source: a single line
of spaces normalizes to the empty sequence. -/
theorem mdstat_c8_empty_witness :
    parseMDStat 10 [("   ").data] = CppResult.ok ⟨[], [], []⟩ ∧
    genMDDevices 10 [("   ").data] = CppResult.ok [] ∧
    genMDDrives 10 [("   ").data] = CppResult.ok [] ∧
    genMDPersonalities 10 [("   ").data] = CppResult.ok [] :=
  mdstat_c8_empty 10 [("   ").data] (by decide)

/-! ### Claim C9 -/

lemma metaField_metaSet (k : MetaKey) (v : Str) (d : MDDevice) :
    metaField k (metaSet k v d) = v := by
  cases k <;> rfl

/-- Claim C9: within one array block, when two consumed metadata lines match
the same key of the if/else-if chain, both lines are consumed (the loop
advances past both) and the field selected by the key holds the value
extracted from the later line — the later match overwrites the earlier one. -/
theorem mdstat_c9_overwrite (k : MetaKey) (p1 p2 : Nat) (l1 l2 t : Str)
    (rest : List Str) (mdd : MDDevice)
    (h1 : metaKeyOf l1 = some (k, p1)) (h2 : metaKeyOf l2 = some (k, p2))
    (ht : metaKeyOf t = none) :
    metaLoop mdd (l1 :: l2 :: t :: rest) =
      some (2, metaSet k (trimSp (l2.drop p2))
        (metaSet k (trimSp (l1.drop p1)) mdd)) ∧
    metaField k
        (metaSet k (trimSp (l2.drop p2)) (metaSet k (trimSp (l1.drop p1)) mdd)) =
      trimSp (l2.drop p2) := by
  constructor
  · simp [metaLoop, metaApply, h1, h2, ht]
  · exact metaField_metaSet k (trimSp (l2.drop p2)) _

/-- Witness for claim C9: two lines both matching the `resync =` key followed
by a non-matching line; the stored resync value is extracted from the second
line. -/
theorem mdstat_c9_overwrite_witness :
    metaLoop {} ((("resync = a").data) :: (("resync = b").data) :: (("stop").data) :: []) =
      some (2, metaSet MetaKey.resync (trimSp ((("resync = b").data).drop 8))
        (metaSet MetaKey.resync (trimSp ((("resync = a").data).drop 8)) {})) ∧
    metaField MetaKey.resync
        (metaSet MetaKey.resync (trimSp ((("resync = b").data).drop 8))
          (metaSet MetaKey.resync (trimSp ((("resync = a").data).drop 8)) {})) =
      trimSp ((("resync = b").data).drop 8) :=
  mdstat_c9_overwrite MetaKey.resync 8 8 (("resync = a").data) (("resync = b").data)
    (("stop").data) [] {} (by decide) (by decide) (by decide)

/-! ### Claim C10 -/

lemma driveRowsAux_mem (dn st : Str) :
    ∀ (ds : List Str) (rows : List DriveRow),
      driveRowsAux dn st ds = CppResult.ok rows →
      ∀ r ∈ rows, r.md_device_name = dn ∧ r.drive_name ∈ ds := by
  intro ds
  induction ds with
  | nil =>
    intro rows h r hr
    simp only [driveRowsAux, CppResult.ok.injEq] at h
    subst h
    cases hr
  | cons d ds ih =>
    intro rows h r hr
    simp only [driveRowsAux] at h
    cases hrow : rowCore st d with
    | ok o =>
      cases o with
      | none =>
        simp only [hrow] at h
        obtain ⟨h1, h2⟩ := ih rows h r hr
        exact ⟨h1, List.mem_cons_of_mem _ h2⟩
      | some stv =>
        simp only [hrow] at h
        cases hrec : driveRowsAux dn st ds with
        | ok rs =>
          simp only [hrec, CppResult.ok.injEq] at h
          subst h
          rcases List.mem_cons.mp hr with rfl | hm
          · exact ⟨rfl, List.mem_cons_self _ _⟩
          · obtain ⟨h1, h2⟩ := ih rs hrec r hm
            exact ⟨h1, List.mem_cons_of_mem _ h2⟩
        | oob => simp only [hrec] at h; cases h
        | exc => simp only [hrec] at h; cases h
        | diverge => simp only [hrec] at h; cases h
    | oob => simp only [hrow] at h; cases h
    | exc => simp only [hrow] at h; cases h
    | diverge => simp only [hrow] at h; cases h

lemma devicesRows_mem :
    ∀ (devs : List MDDevice) (rows : List DriveRow),
      devicesRows devs = CppResult.ok rows →
      ∀ r ∈ rows, ∃ dev, dev ∈ devs ∧ r.md_device_name = dev.name ∧
        r.drive_name ∈ dev.drives := by
  intro devs
  induction devs with
  | nil =>
    intro rows h r hr
    simp only [devicesRows, CppResult.ok.injEq] at h
    subst h
    cases hr
  | cons dev devs ih =>
    intro rows h r hr
    rw [devicesRows] at h
    cases haux : driveRowsAux dev.name dev.driveStatuses dev.drives with
    | ok rs =>
      rw [haux] at h
      cases hrec : devicesRows devs with
      | ok rs2 =>
        rw [hrec] at h
        simp only [CppResult.ok.injEq] at h
        subst h
        rcases List.mem_append.mp hr with hm | hm
        · obtain ⟨h1, h2⟩ := driveRowsAux_mem dev.name dev.driveStatuses dev.drives rs haux r hm
          exact ⟨dev, List.mem_cons_self _ _, h1, h2⟩
        · obtain ⟨dev2, hd, h1, h2⟩ := ih rs2 hrec r hm
          exact ⟨dev2, List.mem_cons_of_mem _ hd, h1, h2⟩
      | oob => rw [hrec] at h; cases h
      | exc => rw [hrec] at h; cases h
      | diverge => rw [hrec] at h; cases h
    | oob => rw [haux] at h; cases h
    | exc => rw [haux] at h; cases h
    | diverge => rw [haux] at h; cases h

/-- Claim C10: every row emitted by the drive membership projection carries in
`drive_name` the full raw member token of its array's header line, verbatim
(bracketed slot and trailing flags included; no bracket stripping), together
with that array's name. -/
theorem mdstat_c10_drive_name (fuel : Nat) (raw : List Str)
    (rows : List DriveRow) (r : DriveRow)
    (hg : genMDDrives fuel raw = CppResult.ok rows) (hr : r ∈ rows) :
    ∃ mds dev, parseMDStat fuel raw = CppResult.ok mds ∧ dev ∈ mds.devices ∧
      r.md_device_name = dev.name ∧ r.drive_name ∈ dev.drives := by
  rw [genMDDrives] at hg
  cases hp : parseMDStat fuel raw with
  | ok mds =>
    rw [hp] at hg
    obtain ⟨dev, hd, h1, h2⟩ := devicesRows_mem mds.devices rows hg r hr
    exact ⟨mds, dev, rfl, hd, h1, h2⟩
  | oob => rw [hp] at hg; cases hg
  | exc => rw [hp] at hg; cases hg
  | diverge => rw [hp] at hg; cases hg

/-- Witness for claim C10 at `c10Input`: the flag-suffixed member token
`hdb2[1](F)` appears verbatim as the drive name of its row. -/
theorem mdstat_c10_drive_name_witness :
    ∃ mds dev, parseMDStat 10 c10Input = CppResult.ok mds ∧ dev ∈ mds.devices ∧
      c10Row.md_device_name = dev.name ∧ c10Row.drive_name ∈ dev.drives :=
  mdstat_c10_drive_name 10 c10Input c10Rows c10Row (by decide) (by decide)

/-! ### Claim C6 -/

lemma splitByAux_no_delim (p : Char → Bool) :
    ∀ (s cur : Str), (∀ c ∈ cur, p c = false) →
      ∀ t ∈ splitByAux p s cur, ∀ c ∈ t, p c = false := by
  intro s
  induction s with
  | nil =>
    intro cur hcur t ht c hc
    simp only [splitByAux, List.mem_singleton] at ht
    subst ht
    exact hcur c (List.mem_reverse.mp hc)
  | cons a s ih =>
    intro cur hcur t ht c hc
    by_cases hp : p a = true
    · rw [splitByAux, if_pos hp] at ht
      rcases List.mem_cons.mp ht with rfl | ht2
      · exact hcur c (List.mem_reverse.mp hc)
      · exact ih [] (by intro x hx; cases hx) t ht2 c hc
    · rw [splitByAux, if_neg hp] at ht
      refine ih (a :: cur) ?_ t ht c hc
      intro x hx
      rcases List.mem_cons.mp hx with rfl | hx2
      · exact Bool.eq_false_iff.mpr hp
      · exact hcur x hx2

lemma splitWs_no_delim (s : Str) :
    ∀ t ∈ splitWs s, ∀ c ∈ t, wsDelim c = false := by
  intro t ht c hc
  have htt : t ∈ splitByAux wsDelim s [] := (List.mem_filter.mp ht).1
  exact splitByAux_no_delim wsDelim s [] (by intro x hx; cases hx) t htt c hc

lemma ffno_cons_not_mem (c : Char) (rest set : Str) (h : set.contains c = false) :
    findFirstNotOf (c :: rest) set = some 0 := by
  unfold findFirstNotOf ffnoAux
  rw [h]
  rfl

lemma trimSp_eq_self (t : Str) (h : ∀ c ∈ t, c ≠ ' ') : trimSp t = t := by
  cases t with
  | nil => rfl
  | cons a rest =>
    have ha : (([' '] : Str).contains a) = false := by
      simp only [List.contains_cons, List.contains_nil, Bool.or_false]
      exact beq_eq_false_iff_ne.mpr (h a (List.mem_cons_self _ _))
    have h1 : findFirstNotOf (a :: rest) [' '] = some 0 :=
      ffno_cons_not_mem a rest [' '] ha
    have hrev : ∃ b tl, (a :: rest).reverse = b :: tl := by
      cases hh : (a :: rest).reverse with
      | nil =>
        have := congrArg List.length hh
        simp at this
      | cons b tl => exact ⟨b, tl, rfl⟩
    obtain ⟨b, tl, hh⟩ := hrev
    have hb : b ∈ a :: rest := by
      rw [← List.mem_reverse, hh]
      exact List.mem_cons_self _ _
    have hbne : (([' '] : Str).contains b) = false := by
      simp only [List.contains_cons, List.contains_nil, Bool.or_false]
      exact beq_eq_false_iff_ne.mpr (h b hb)
    have h2 : findLastNotOf (a :: rest) [' '] = some rest.length := by
      unfold findLastNotOf
      rw [hh, ffno_cons_not_mem b tl [' '] hbne]
      simp
    unfold trimSp trimChar
    rw [h1, h2]
    simp [List.take_succ_cons]

lemma map_id_of_eq_self {α : Type} (f : α → α) :
    ∀ l : List α, (∀ x ∈ l, f x = x) → l.map f = l := by
  intro l
  induction l with
  | nil => intro _; rfl
  | cons a as ih =>
    intro h
    simp only [List.map_cons]
    rw [h a (List.mem_cons_self _ _), ih (fun x hx => h x (List.mem_cons_of_mem _ hx))]

lemma map_trimSp_splitWs (line : Str) : (splitWs line).map trimSp = splitWs line := by
  apply map_id_of_eq_self
  intro t ht
  apply trimSp_eq_self
  intro c hc heq
  have hd := splitWs_no_delim line t ht c hc
  rw [heq] at hd
  simp [wsDelim] at hd

lemma getD_reverse_one (l : List Str) (h : 2 ≤ l.length) :
    l.reverse.getD 1 [] = l.getD (l.length - 2) [] := by
  rw [List.getD_eq_getElem?_getD, List.getD_eq_getElem?_getD,
    List.getElem?_reverse (by omega)]
  have e : l.length - 1 - 1 = l.length - 2 := by omega
  rw [e]

lemma getD_reverse_zero (l : List Str) (h : 1 ≤ l.length) :
    l.reverse.getD 0 [] = l.getD (l.length - 1) [] := by
  rw [List.getD_eq_getElem?_getD, List.getD_eq_getElem?_getD,
    List.getElem?_reverse (by omega)]
  have e : l.length - 1 - 0 = l.length - 1 := by omega
  rw [e]

lemma dropLast_dropLast_eq_take (l : List Str) :
    l.dropLast.dropLast = l.take (l.length - 2) := by
  rw [List.dropLast_eq_take, List.dropLast_eq_take, List.take_take, List.length_take]
  have e : min (min (l.length - 1) l.length - 1) (l.length - 1) = l.length - 2 := by
    omega
  rw [e]

lemma foldl_space_flatten :
    ∀ (mid : List Str) (init : Str),
      mid.foldl (fun a t => a ++ ' ' :: t) init =
        init ++ (mid.map (fun t => ' ' :: t)).flatten := by
  intro mid
  induction mid with
  | nil => intro init; simp
  | cons m ms ih =>
    intro init
    simp only [List.foldl_cons, List.map_cons, List.flatten_cons]
    rw [ih]
    simp [List.append_assoc]

lemma parseConfigCore_spec (cfg : List Str) (mdd : MDDevice) (h : 4 ≤ cfg.length) :
    parseConfigCore cfg mdd = { mdd with
      usableSize := specUsableSize cfg,
      healthyDrives := specHealthy cfg,
      driveStatuses := specBitmapTok cfg,
      other := mdd.other ++ specOtherSettings cfg } := by
  unfold parseConfigCore specUsableSize specHealthy specBitmapTok specOtherSettings
  rw [getD_reverse_one cfg (by omega), getD_reverse_zero cfg (by omega),
    dropLast_dropLast_eq_take (cfg.drop 2), List.length_drop]
  have e : cfg.length - 2 - 2 = cfg.length - 4 := by omega
  rw [e, foldl_space_flatten]
  by_cases h4 : 4 < cfg.length
  · rw [if_pos h4]
  · rw [if_neg h4]
    have hlen : cfg.length = 4 := by omega
    rw [hlen]
    simp

lemma parseConfig_of_lt4 (line : Str) (mdd : MDDevice)
    (h : (splitWs line).length < 4) : parseConfig line mdd = mdd := by
  unfold parseConfig
  rw [if_pos h]

lemma parseConfig_of_ge4 (line : Str) (mdd : MDDevice)
    (h : 4 ≤ (splitWs line).length) :
    parseConfig line mdd = parseConfigCore (splitWs line) mdd := by
  unfold parseConfig
  rw [if_neg (by omega), map_trimSp_splitWs]

lemma mdStep_short_config (lines : List Str) (n : Nat) (acc : MDStat)
    (line cfg r : Str) (rest : List Str)
    (hdrop : lines.drop n = line :: cfg :: r :: rest)
    (hmd : line.take 2 = kMd)
    (hcolon : 2 ≤ (splitColonOnce line).length)
    (hcfg : (splitWs cfg).length < 4)
    (hr : metaKeyOf r = none) :
    ∃ mdd : MDDevice,
      mdStep lines n acc =
        CppResult.ok (n + 2, { acc with devices := acc.devices ++ [mdd] }) ∧
      mdd.usableSize = [] ∧ mdd.healthyDrives = [] ∧
      mdd.driveStatuses = [] ∧ mdd.other = [] := by
  have h0 : lines[n]? = some line := by
    have hg := List.getElem?_drop lines n 0
    rw [hdrop] at hg
    simpa using hg.symm
  have h1 : lines[n + 1]? = some cfg := by
    have hg := List.getElem?_drop lines n 1
    rw [hdrop] at hg
    simpa using hg.symm
  have h2 : lines.drop (n + 2) = r :: rest := by
    have hg := List.drop_drop 2 n lines
    rw [hdrop] at hg
    simpa using hg.symm
  unfold mdStep
  rw [h0]
  simp only [Option.getD_some]
  rw [if_pos hmd, if_neg (by omega : ¬ (splitColonOnce line).length < 2)]
  rw [h1]
  simp only
  rw [parseConfig_of_lt4 cfg _ hcfg, h2]
  simp only [metaLoop, metaApply, hr]
  simp only [Nat.add_zero]
  refine ⟨_, rfl, ?_, ?_, ?_, ?_⟩ <;> (split <;> rfl)

/-- Claim C6: on a configuration line of at least four whitespace tokens the
parser stores the first two tokens joined by one space as `usableSize`, the
second-to-last token as the healthy-drives ratio, the last token as the drive
status bitmap, and the strictly-middle tokens (each preceded by one space)
appended to `other`; with fewer than four tokens all those fields are left
untouched (empty), and — as the cursor part of the claim states — an array
block with such a short configuration line still consumes exactly one line for
the configuration slot: the step moves the cursor from the header at `n` to
`n + 2` before the next block. -/
theorem mdstat_c6_config :
    (∀ line mdd, 4 ≤ (splitWs line).length →
      parseConfig line mdd = { mdd with
        usableSize := specUsableSize (splitWs line),
        healthyDrives := specHealthy (splitWs line),
        driveStatuses := specBitmapTok (splitWs line),
        other := mdd.other ++ specOtherSettings (splitWs line) }) ∧
    (∀ line mdd, (splitWs line).length < 4 → parseConfig line mdd = mdd) ∧
    (∀ (lines : List Str) (n : Nat) (acc : MDStat) (line cfg r : Str)
        (rest : List Str),
      lines.drop n = line :: cfg :: r :: rest →
      line.take 2 = kMd →
      2 ≤ (splitColonOnce line).length →
      (splitWs cfg).length < 4 →
      metaKeyOf r = none →
      ∃ mdd : MDDevice,
        mdStep lines n acc =
          CppResult.ok (n + 2, { acc with devices := acc.devices ++ [mdd] }) ∧
        mdd.usableSize = [] ∧ mdd.healthyDrives = [] ∧
        mdd.driveStatuses = [] ∧ mdd.other = []) := by
  refine ⟨?_, ?_, ?_⟩
  · intro line mdd h
    rw [parseConfig_of_ge4 line mdd h]
    exact parseConfigCore_spec (splitWs line) mdd h
  · exact parseConfig_of_lt4
  · intro lines n acc line cfg r rest hdrop hmd hcolon hcfg hr
    exact mdStep_short_config lines n acc line cfg r rest hdrop hmd hcolon hcfg hr

/-- Witness for claim C6 at concrete inputs: a six-token configuration line
(filled fields, middle tokens into `other`), a three-token one (fields left
empty), and a block whose short configuration line still consumes exactly one
line (cursor `0 ↦ 2`). -/
theorem mdstat_c6_config_witness :
    (parseConfig (("1953514496 blocks super 1.2 [2/2] [UU]").data) {} =
      { usableSize := specUsableSize (splitWs (("1953514496 blocks super 1.2 [2/2] [UU]").data)),
        healthyDrives := specHealthy (splitWs (("1953514496 blocks super 1.2 [2/2] [UU]").data)),
        driveStatuses := specBitmapTok (splitWs (("1953514496 blocks super 1.2 [2/2] [UU]").data)),
        other := ([] : Str) ++ specOtherSettings (splitWs (("1953514496 blocks super 1.2 [2/2] [UU]").data)) }) ∧
    (parseConfig (("100 blocks extra").data) {} = {}) ∧
    (∃ mdd : MDDevice,
      mdStep [("md7 : active").data, ("100 blocks extra").data, ("trailer").data] 0 {} =
        CppResult.ok (0 + 2, { devices := [mdd] : MDStat }) ∧
      mdd.usableSize = [] ∧ mdd.healthyDrives = [] ∧
      mdd.driveStatuses = [] ∧ mdd.other = []) :=
  ⟨mdstat_c6_config.1 (("1953514496 blocks super 1.2 [2/2] [UU]").data) {} (by decide),
   mdstat_c6_config.2.1 (("100 blocks extra").data) {} (by decide),
   mdstat_c6_config.2.2 [("md7 : active").data, ("100 blocks extra").data, ("trailer").data]
     0 {} (("md7 : active").data) (("100 blocks extra").data) (("trailer").data) []
     rfl (by decide) (by decide) (by decide) (by decide)⟩

end MDStatVerify
